import Mathlib

/-!
Verification of the scrcpy protocol-reader scripts
(`scrcpy_debug_client.py`, `scrcpy_video_client.py`, `scrcpy_recorder.py`,
`scrcpy_raw_recorder.py`, `simple_test.py`).

A connected stream socket is modelled as a `ByteSource`: the list of byte
chunks that successive `recv` calls will deliver, in order; an exhausted
list means the peer has closed the connection, so every further `recv`
returns the empty string.  A single `recv(n)` delivers the next pending
chunk truncated to `n` bytes (the remainder stays buffered), which is
exactly the partial-read behaviour of stream sockets that the scripts have
to cope with.  Bytes are `Nat` values below 256.
-/

set_option autoImplicit false

/-- A blocking stream socket, modelled by the sequence of deliveries its
future `recv` calls will produce. -/
structure ByteSource where
  chunks : List (List Nat)
deriving DecidableEq

/-- All bytes the source will ever deliver, in order. -/
def flattenChunks (s : ByteSource) : List Nat :=
  s.chunks.foldr (· ++ ·) []

/-- A well-formed source delivers at least one byte per `recv` until the
peer closes: no chunk is empty. -/
def NonemptyChunks (s : ByteSource) : Prop :=
  ∀ c ∈ s.chunks, c ≠ []

instance (s : ByteSource) : Decidable (NonemptyChunks s) := by
  unfold NonemptyChunks; infer_instance

/-- Model of `socket.recv(n)`: deliver the next pending chunk truncated to
`n` bytes
(the remainder stays buffered); a closed (exhausted) source or `n = 0`
yields the empty string. -/
def recv (s : ByteSource) (n : Nat) : List Nat × ByteSource :=
  match s.chunks with
  | [] => ([], s)
  | c :: rest =>
    if n = 0 then ([], s)
    else if c.length ≤ n then (c, ⟨rest⟩)
    else (c.take n, ⟨c.drop n :: rest⟩)

/-- Big-endian value of a byte string, as computed by Python's
`struct.unpack` with a `>` format. -/
def beNat (bs : List Nat) : Nat :=
  bs.foldl (fun acc b => acc * 256 + b) 0

/-- The `w`-byte big-endian encoding of `x` (the inverse direction,
`struct.pack`). -/
def natToBeBytes : Nat → Nat → List Nat
  | 0, _ => []
  | w + 1, x => natToBeBytes w (x / 256) ++ [x % 256]

/-- Model of `struct.unpack('>III', meta)` on the 12-byte codec metadata: codec
identifier, width, height, each an unsigned 32-bit big-endian field. -/
def unpackIII (bs : List Nat) : Nat × Nat × Nat :=
  (beNat (bs.take 4), beNat ((bs.drop 4).take 4), beNat (bs.drop 8))

/-- The codec-name loop shared by all scripts: the four character codes
`(codec_id >> (24 - i * 8)) & 0xFF` for `i = 0, 1, 2, 3` (most significant
byte first). -/
def codec_name_codes (codec_id : Nat) : List Nat :=
  (List.range 4).map fun i => (codec_id >>> (24 - i * 8)) &&& 0xFF

/-- The dict produced by `read_frame_header`: `is_config` and `is_keyframe`
are the Python ints `0`/`1`, `pts` the low 62 bits, `size` the unsigned
32-bit payload size. -/
structure FrameHeader where
  is_config : Nat
  is_keyframe : Nat
  pts : Nat
  size : Nat
deriving DecidableEq

namespace ScrcpyDebugClient

/-- Lines 87–126 of `scrcpy_debug_client.py` (same single-`recv` shape in
`scrcpy_video_client.py`, `scrcpy_recorder.py`, `scrcpy_raw_recorder.py`
and `simple_test.py`): `read_device_meta` issues one `recv(64)` and
succeeds exactly when that one call returns 64 bytes. -/
def read_device_meta (s : ByteSource) : Bool × ByteSource :=
  ((recv s 64).1.length == 64, (recv s 64).2)

/-- Lines 128–152: `read_video_meta` issues one `recv(12)` and on exactly
12 bytes unpacks `codec_id, width, height = struct.unpack('>III', meta)`,
returning `(width, height)`; otherwise it returns `(None, None)`. -/
def read_video_meta (s : ByteSource) : Option (Nat × Nat) × ByteSource :=
  let meta := (recv s 12).1
  if meta.length = 12 then
    (some ((unpackIII meta).2.1, (unpackIII meta).2.2), (recv s 12).2)
  else
    (none, (recv s 12).2)

/-- The field extraction of `read_frame_header` (lines 159–173):
`flags_pts, packet_size = struct.unpack('>QI', header)`, then
`is_config = (flags_pts >> 63) & 1`, `is_keyframe = (flags_pts >> 62) & 1`,
`pts = flags_pts & ((1 << 62) - 1)`. -/
def parse_frame_header (header : List Nat) : FrameHeader :=
  let flags_pts := beNat (header.take 8)
  let packet_size := beNat (header.drop 8)
  { is_config := (flags_pts >>> 63) &&& 1
    is_keyframe := (flags_pts >>> 62) &&& 1
    pts := flags_pts &&& ((1 <<< 62) - 1)
    size := packet_size }

/-- Lines 154–179 (identical in `scrcpy_video_client.py`, and inlined in
both recorders and `simple_test.py`): one `recv(12)`; on exactly 12 bytes
the parsed header, otherwise `None` — whether the call returned zero bytes
(closed source) or a partial header. -/
def read_frame_header (s : ByteSource) : Option FrameHeader × ByteSource :=
  let header := (recv s 12).1
  if header.length = 12 then (some (parse_frame_header header), (recv s 12).2)
  else (none, (recv s 12).2)

/-- One pass of the `while len(data) < size` loop of `read_frame_data`
(lines 184–190).  `fuel` is an upper bound on the remaining iterations;
every call reached from `read_frame_data` keeps `remaining ≤ fuel`, because
each iteration appends at least one byte, so the `fuel = 0` fallback is
never taken. -/
def read_frame_data_go :
    Nat → Nat → List Nat → ByteSource → Option (List Nat) × ByteSource
  | _, 0, data, s => (some data, s)
  | 0, _ + 1, _, s => (none, s)
  | fuel + 1, remaining + 1, data, s =>
    let chunk := (recv s (remaining + 1)).1
    if chunk = [] then (none, (recv s (remaining + 1)).2)
    else
      read_frame_data_go fuel (remaining + 1 - chunk.length) (data ++ chunk)
        (recv s (remaining + 1)).2

/-- Lines 181–193 (identical in `scrcpy_video_client.py` lines 159–171):
the looping exact read.  Starts with `data = b''` and repeatedly calls
`recv(size - len(data))`, returning `None` as soon as a call yields zero
bytes, and the accumulated buffer once `len(data)` reaches `size`. -/
def read_frame_data (s : ByteSource) (size : Nat) :
    Option (List Nat) × ByteSource :=
  read_frame_data_go size size [] s

/-- Lines 64–80 of `connect`: the dummy-byte probe.  `timed_out` records
whether `recv(1)` raised `socket.timeout`; both that exception and a
successful (or empty) read are caught, so `connect` proceeds either way
and the probe consumes at most the one byte it read. -/
def connect_probe (timed_out : Bool) (s : ByteSource) : ByteSource :=
  if timed_out then s else (recv s 1).2

/-- The handshake portion of `run` (lines 195–207): `connect` (with its
probe), then `read_device_meta`, then `read_video_meta`; each failure
aborts. -/
def handshake (timed_out : Bool) (s : ByteSource) :
    Option (Nat × Nat) × ByteSource :=
  let s1 := connect_probe timed_out s
  let r := read_device_meta s1
  if r.1 then read_video_meta r.2 else (none, r.2)

end ScrcpyDebugClient

namespace ScrcpyRawRecorder

/-- Model of `read_device_meta` of `scrcpy_raw_recorder.py` lines 82–105 (identical
in `scrcpy_recorder.py` lines 83–106): the probe `recv(1)` sits inside the
same `try` block as the 64-byte read, so `probe_timed_out` (a
`socket.timeout` from the probe) is caught by the enclosing handler and the
whole step returns `False`. -/
def read_device_meta (probe_timed_out : Bool) (s : ByteSource) :
    Bool × ByteSource :=
  if probe_timed_out then (false, s)
  else
    let s1 := (recv s 1).2
    ((recv s1 64).1.length == 64, (recv s1 64).2)

/-- One pass of the payload loop of `record_video_stream` (lines 164–173):
like `read_frame_data_go`, but a zero-byte `recv` is a `break` that keeps
the partial `frame_data` instead of returning `None`. -/
def payload_loop_go : Nat → Nat → List Nat → ByteSource → List Nat × ByteSource
  | _, 0, frame_data, s => (frame_data, s)
  | 0, _ + 1, frame_data, s => (frame_data, s)
  | fuel + 1, remaining + 1, frame_data, s =>
    let chunk := (recv s (remaining + 1)).1
    if chunk = [] then (frame_data, (recv s (remaining + 1)).2)
    else
      payload_loop_go fuel (remaining + 1 - chunk.length) (frame_data ++ chunk)
        (recv s (remaining + 1)).2

/-- The `while remaining > 0` payload loop, started with `frame_data = b''`
and `remaining = size`. -/
def payload_loop (s : ByteSource) (size : Nat) : List Nat × ByteSource :=
  payload_loop_go size size [] s

/-- One iteration of the `while self.running` loop of `record_video_stream`
(lines 146–189).  `out` is the byte sequence written to the output file so
far; the result is (keep going, file contents, remaining source).  A short
header read or incomplete frame data `break`s without writing; only a
complete frame is appended to the file. -/
def record_step (s : ByteSource) (out : List Nat) :
    Bool × List Nat × ByteSource :=
  let header := (recv s 12).1
  let s1 := (recv s 12).2
  if header.length ≠ 12 then (false, out, s1)
  else
    let size := beNat (header.drop 8)
    let frame_data := (payload_loop s1 size).1
    let s2 := (payload_loop s1 size).2
    if frame_data.length = size then (true, out ++ frame_data, s2)
    else (false, out, s2)

end ScrcpyRawRecorder

/-- Modelled from the spec: the sender-side frame-header encoder is not part
of this repository (the scripts only decode); §6 fixes the wire layout as
`flagsAndPts:u64be` with bit 63 the config flag, bit 62 the keyframe flag
and bits 61..0 the timestamp, followed by `payloadSize:u32be`. -/
def encodeFrameHeader (h : FrameHeader) : List Nat :=
  natToBeBytes 8 (h.is_config * 2 ^ 63 + h.is_keyframe * 2 ^ 62 + h.pts) ++
    natToBeBytes 4 h.size

/-- The concrete handshake source of end-to-end scenario A: a 64-byte
device name `"Pixel"` padded with NULs, then the codec metadata bytes
`00 00 00 01 00 00 05 00 00 00 02 D0`, delivered in one piece. -/
def pixelSource : ByteSource :=
  ⟨[[80, 105, 120, 101, 108] ++ List.replicate 59 0 ++
      [0, 0, 0, 1, 0, 0, 5, 0, 0, 0, 2, 0xD0]]⟩

/-- The source of end-to-end scenario C: a 12-byte frame header declaring a
100-byte payload, then only 40 payload bytes before the peer closes. -/
def truncSource : ByteSource :=
  ⟨[[0, 0, 0, 0, 0, 0, 0, 0, 0, 0, 0, 100], List.replicate 40 171]⟩

theorem flattenChunks_nil : flattenChunks ⟨[]⟩ = [] := rfl

theorem flattenChunks_cons (c : List Nat) (rest : List (List Nat)) :
    flattenChunks ⟨c :: rest⟩ = c ++ flattenChunks ⟨rest⟩ := rfl

theorem recv_length_le (s : ByteSource) (n : Nat) : (recv s n).1.length ≤ n := by
  obtain ⟨chunks⟩ := s
  match chunks with
  | [] => simp [recv]
  | c :: rest =>
    simp only [recv]
    split
    · simp_all
    · split
      · simpa using (by omega : c.length ≤ n)
      · simp

theorem recv_flatten (s : ByteSource) (n : Nat) :
    flattenChunks s = (recv s n).1 ++ flattenChunks (recv s n).2 := by
  obtain ⟨chunks⟩ := s
  match chunks with
  | [] => simp [recv]
  | c :: rest =>
    simp only [recv]
    split
    · simp
    · split
      · simp [flattenChunks_cons]
      · simp only [flattenChunks, List.foldr_cons, ← List.append_assoc,
          List.take_append_drop]

theorem recv_nonemptyChunks (s : ByteSource) (n : Nat) (h : NonemptyChunks s) :
    NonemptyChunks (recv s n).2 := by
  obtain ⟨chunks⟩ := s
  match chunks with
  | [] => simpa [recv] using h
  | c :: rest =>
    simp only [recv]
    split
    · exact h
    · split
      · intro d hd; exact h d (List.mem_cons_of_mem _ hd)
      · intro d hd
        rcases List.mem_cons.mp hd with rfl | hd'
        · have : n < c.length := by omega
          simpa [List.drop_eq_nil_iff] using (by omega : ¬ c.length ≤ n)
        · exact h d (List.mem_cons_of_mem _ hd')

theorem recv_ne_nil (s : ByteSource) (n : Nat) (h : NonemptyChunks s)
    (hn : 0 < n) (hs : flattenChunks s ≠ []) : (recv s n).1 ≠ [] := by
  obtain ⟨chunks⟩ := s
  match chunks with
  | [] => simp [flattenChunks] at hs
  | c :: rest =>
    have hc : c ≠ [] := h c (List.mem_cons_self _ _)
    simp only [recv]
    split
    · omega
    · split
      · exact hc
      · have hlt : n < c.length := by omega
        intro hnil
        have hlen : (List.take n c).length = 0 := by
          rw [show List.take n c = [] from hnil]; rfl
        rw [List.length_take] at hlen
        omega


theorem natToBeBytes_length (w x : Nat) : (natToBeBytes w x).length = w := by
  induction w generalizing x with
  | zero => rfl
  | succ w ih => simp [natToBeBytes, ih]

theorem beNat_append_singleton (l : List Nat) (b : Nat) :
    beNat (l ++ [b]) = beNat l * 256 + b := by
  simp [beNat, List.foldl_append]

theorem beNat_natToBeBytes (w x : Nat) :
    beNat (natToBeBytes w x) = x % 2 ^ (8 * w) := by
  induction w generalizing x with
  | zero => simp [natToBeBytes, beNat, Nat.mod_one]
  | succ w ih =>
    have hpow : (2 : ℕ) ^ (8 * (w + 1)) = 256 * 2 ^ (8 * w) := by
      rw [Nat.mul_succ, pow_add]
      norm_num
      ring
    rw [natToBeBytes, beNat_append_singleton, ih, hpow, Nat.mod_mul]
    omega

theorem natToBeBytes_mod (w x : Nat) :
    natToBeBytes w (x % 2 ^ (8 * w)) = natToBeBytes w x := by
  induction w generalizing x with
  | zero => rfl
  | succ w ih =>
    have hpow : (2 : ℕ) ^ (8 * (w + 1)) = 256 * 2 ^ (8 * w) := by
      rw [Nat.mul_succ, pow_add]
      norm_num
      ring
    rw [natToBeBytes, natToBeBytes, hpow]
    have h1 : x % (256 * 2 ^ (8 * w)) % 256 = x % 256 :=
      Nat.mod_mod_of_dvd x (Dvd.intro _ rfl)
    have h2 : x % (256 * 2 ^ (8 * w)) / 256 = x / 256 % 2 ^ (8 * w) :=
      Nat.mod_mul_right_div_self x 256 (2 ^ (8 * w))
    rw [h1, h2, ih]

/-- Masking with the low byte is reduction mod 256 (`& 0xFF`). -/
theorem and_255_eq_mod (x : Nat) : x &&& 255 = x % 256 := by
  have h := Nat.and_pow_two_sub_one_eq_mod x 8
  norm_num at h
  exact h


namespace ScrcpyDebugClient

theorem read_frame_data_go_some (fuel : Nat) :
    ∀ (remaining : Nat) (data0 : List Nat) (s : ByteSource) (data : List Nat)
      (s' : ByteSource),
      read_frame_data_go fuel remaining data0 s = (some data, s') →
      data.length = data0.length + remaining ∧
        data0 ++ flattenChunks s = data ++ flattenChunks s' := by
  induction fuel with
  | zero =>
    intro remaining data0 s data s' h
    match remaining with
    | 0 =>
      rw [read_frame_data_go] at h
      obtain ⟨h1, h2⟩ := Prod.mk.injEq .. ▸ h
      cases h1
      cases h2
      simp
    | r + 1 => simp [read_frame_data_go] at h
  | succ fuel ih =>
    intro remaining data0 s data s' h
    match remaining with
    | 0 =>
      rw [read_frame_data_go] at h
      obtain ⟨h1, h2⟩ := Prod.mk.injEq .. ▸ h
      cases h1
      cases h2
      simp
    | r + 1 =>
      rw [read_frame_data_go] at h
      by_cases hc : (recv s (r + 1)).1 = []
      · simp [hc] at h
      · simp only [hc, if_false] at h
        obtain ⟨hl, hpre⟩ := ih _ _ _ _ _ h
        have hle : (recv s (r + 1)).1.length ≤ r + 1 := recv_length_le s (r + 1)
        have hpos : 0 < (recv s (r + 1)).1.length := List.length_pos.mpr hc
        constructor
        · simp only [List.length_append] at hl
          omega
        · have hf := recv_flatten s (r + 1)
          rw [hf, ← List.append_assoc]
          exact hpre

theorem read_frame_data_go_none_of_short (fuel : Nat) :
    ∀ (remaining : Nat) (data0 : List Nat) (s : ByteSource),
      NonemptyChunks s → remaining ≤ fuel →
      (flattenChunks s).length < remaining →
      (read_frame_data_go fuel remaining data0 s).1 = none := by
  induction fuel with
  | zero =>
    intro remaining data0 s _ hle hlt
    match remaining with
    | 0 => omega
    | r + 1 => omega
  | succ fuel ih =>
    intro remaining data0 s hwf hle hlt
    match remaining with
    | 0 => omega
    | r + 1 =>
      rw [read_frame_data_go]
      by_cases hc : (recv s (r + 1)).1 = []
      · simp [hc]
      · simp only [hc, if_false]
        have hle' : (recv s (r + 1)).1.length ≤ r + 1 := recv_length_le s (r + 1)
        have hpos : 0 < (recv s (r + 1)).1.length := List.length_pos.mpr hc
        have hf := recv_flatten s (r + 1)
        have hflen : (flattenChunks s).length =
            (recv s (r + 1)).1.length + (flattenChunks (recv s (r + 1)).2).length := by
          rw [hf, List.length_append]
        exact ih _ _ _ (recv_nonemptyChunks s (r + 1) hwf) (by omega) (by omega)

theorem read_frame_data_go_isSome_of_enough (fuel : Nat) :
    ∀ (remaining : Nat) (data0 : List Nat) (s : ByteSource),
      NonemptyChunks s → remaining ≤ fuel →
      remaining ≤ (flattenChunks s).length →
      ((read_frame_data_go fuel remaining data0 s).1).isSome = true := by
  induction fuel with
  | zero =>
    intro remaining data0 s _ hle _
    match remaining with
    | 0 => rw [read_frame_data_go]; rfl
    | r + 1 => omega
  | succ fuel ih =>
    intro remaining data0 s hwf hle hge
    match remaining with
    | 0 => rw [read_frame_data_go]; rfl
    | r + 1 =>
      rw [read_frame_data_go]
      have hsne : flattenChunks s ≠ [] := by
        intro hnil
        rw [hnil] at hge
        simp at hge
      have hc : (recv s (r + 1)).1 ≠ [] := recv_ne_nil s (r + 1) hwf (by omega) hsne
      simp only [hc, if_false]
      have hle' : (recv s (r + 1)).1.length ≤ r + 1 := recv_length_le s (r + 1)
      have hpos : 0 < (recv s (r + 1)).1.length := List.length_pos.mpr hc
      have hf := recv_flatten s (r + 1)
      have hflen : (flattenChunks s).length =
          (recv s (r + 1)).1.length + (flattenChunks (recv s (r + 1)).2).length := by
        rw [hf, List.length_append]
      exact ih _ _ _ (recv_nonemptyChunks s (r + 1) hwf) (by omega) (by omega)

end ScrcpyDebugClient

namespace ScrcpyRawRecorder

theorem payload_loop_go_length_le (fuel : Nat) :
    ∀ (remaining : Nat) (frame_data : List Nat) (s : ByteSource),
      ((payload_loop_go fuel remaining frame_data s).1).length ≤
        frame_data.length + (flattenChunks s).length := by
  induction fuel with
  | zero =>
    intro remaining frame_data s
    match remaining with
    | 0 => rw [payload_loop_go]; exact Nat.le_add_right _ _
    | r + 1 => rw [payload_loop_go]; exact Nat.le_add_right _ _
  | succ fuel ih =>
    intro remaining frame_data s
    match remaining with
    | 0 => rw [payload_loop_go]; exact Nat.le_add_right _ _
    | r + 1 =>
      rw [payload_loop_go]
      by_cases hc : (recv s (r + 1)).1 = []
      · simp [hc]
      · simp only [hc, if_false]
        have hrec := ih (r + 1 - (recv s (r + 1)).1.length)
          (frame_data ++ (recv s (r + 1)).1) (recv s (r + 1)).2
        have hf := recv_flatten s (r + 1)
        have hflen : (flattenChunks s).length =
            (recv s (r + 1)).1.length + (flattenChunks (recv s (r + 1)).2).length := by
          rw [hf, List.length_append]
        simp only [List.length_append] at hrec
        omega

end ScrcpyRawRecorder

theorem flags_pts_decompose (c k p : Nat) (hc : c ≤ 1) (hk : k ≤ 1)
    (hp : p < 2 ^ 62) :
    ((c * 2 ^ 63 + k * 2 ^ 62 + p) >>> 63) &&& 1 = c ∧
      ((c * 2 ^ 63 + k * 2 ^ 62 + p) >>> 62) &&& 1 = k ∧
      (c * 2 ^ 63 + k * 2 ^ 62 + p) &&& ((1 <<< 62) - 1) = p := by
  simp only [Nat.shiftRight_eq_div_pow, Nat.one_shiftLeft, Nat.and_one_is_mod,
    Nat.and_pow_two_sub_one_eq_mod]
  have h62 : (2 : ℕ) ^ 62 = 4611686018427387904 := by norm_num
  have h63 : (2 : ℕ) ^ 63 = 9223372036854775808 := by norm_num
  rw [h62] at hp
  rw [h62, h63]
  omega

/-- Claim C2: for every frame header (flag fields 0 or 1, timestamp below
`2 ^ 62`, payload size below `2 ^ 32`), encoding it in the 12-byte wire
layout (config in bit 63, keyframe in bit 62, timestamp in bits 61..0 of a
big-endian u64, then the size as a big-endian u32) and decoding those 12
bytes with the scripts' `read_frame_header` field extraction returns the
original header. -/
theorem frame_header_roundtrip (h : FrameHeader) (hc : h.is_config ≤ 1)
    (hk : h.is_keyframe ≤ 1) (hp : h.pts < 2 ^ 62) (hs : h.size < 2 ^ 32) :
    ScrcpyDebugClient.parse_frame_header (encodeFrameHeader h) = h := by
  obtain ⟨c, k, p, sz⟩ := h
  have hc' : c ≤ 1 := hc
  have hk' : k ≤ 1 := hk
  have hp' : p < 2 ^ 62 := hp
  have hs' : sz < 2 ^ 32 := hs
  have hF : c * 2 ^ 63 + k * 2 ^ 62 + p < 2 ^ 64 := by
    have h62 : (2 : ℕ) ^ 62 = 4611686018427387904 := by norm_num
    have h63 : (2 : ℕ) ^ 63 = 9223372036854775808 := by norm_num
    have h64 : (2 : ℕ) ^ 64 = 18446744073709551616 := by norm_num
    rw [h62] at hp'
    rw [h62, h63, h64]
    omega
  obtain ⟨g1, g2, g3⟩ := flags_pts_decompose c k p hc' hk' hp
  simp only [encodeFrameHeader, ScrcpyDebugClient.parse_frame_header]
  rw [List.take_left' (natToBeBytes_length 8 _),
    List.drop_left' (natToBeBytes_length 8 _),
    beNat_natToBeBytes, beNat_natToBeBytes,
    (by norm_num : 8 * 8 = 64), (by norm_num : 8 * 4 = 32),
    Nat.mod_eq_of_lt hF, Nat.mod_eq_of_lt hs']
  simp only [FrameHeader.mk.injEq]
  exact ⟨g1, g2, g3, trivial⟩

/-- Witness for C2 at the header of end-to-end scenario B: config and
keyframe flags set, timestamp 5, payload size 3. -/
theorem frame_header_roundtrip_witness :
    (1 : Nat) ≤ 1 ∧ (1 : Nat) ≤ 1 ∧ (5 : Nat) < 2 ^ 62 ∧ (3 : Nat) < 2 ^ 32 ∧
      ScrcpyDebugClient.parse_frame_header (encodeFrameHeader ⟨1, 1, 5, 3⟩) =
        ⟨1, 1, 5, 3⟩ :=
  ⟨by norm_num, by norm_num, by norm_num, by norm_num,
    frame_header_roundtrip ⟨1, 1, 5, 3⟩ (by norm_num) (by norm_num)
      (by norm_num) (by norm_num)⟩

/-- Claim C8: requesting zero bytes from the looping read returns the empty
buffer at once and leaves the source untouched: the `while len(data) <
size` guard fails immediately, so no `recv` is ever issued. -/
theorem read_frame_data_zero (s : ByteSource) :
    ScrcpyDebugClient.read_frame_data s 0 = (some [], s) := rfl

/-- Claim C9: whenever the payload read returns a buffer, the buffer holds
exactly the requested number of bytes, and the source's delivered byte
stream is split exactly after those bytes — nothing past the payload's last
byte is consumed, so the next header read starts at the right offset. -/
theorem read_frame_data_exact (s : ByteSource) (n : Nat) (data : List Nat)
    (s' : ByteSource)
    (h : ScrcpyDebugClient.read_frame_data s n = (some data, s')) :
    data.length = n ∧ flattenChunks s = data ++ flattenChunks s' := by
  obtain ⟨h1, h2⟩ := ScrcpyDebugClient.read_frame_data_go_some n n [] s data s' h
  constructor
  · simpa using h1
  · simpa using h2

/-- Witness for C9: a 3-byte read served as 2 bytes then 1 byte out of a
5-byte stream. -/
theorem read_frame_data_exact_witness :
    ([1, 2, 3] : List Nat).length = 3 ∧
      flattenChunks ⟨[[1, 2], [3, 4, 5]]⟩ =
        [1, 2, 3] ++ flattenChunks ⟨[[4, 5]]⟩ :=
  read_frame_data_exact ⟨[[1, 2], [3, 4, 5]]⟩ 3 [1, 2, 3] ⟨[[4, 5]]⟩ (by decide)

/-- Claim C5: a looping exact read of `n` bytes from a source that delivers
exactly `k` bytes (`0 < k < n`, in any number of nonempty pieces) and then
closes returns `None`, never a partial buffer: the loop keeps issuing
`recv` over short reads until the source reports end-of-data. -/
theorem read_exactly_truncation (n k : Nat) (s : ByteSource)
    (hwf : NonemptyChunks s) (hk : 0 < k) (hkn : k < n)
    (hlen : (flattenChunks s).length = k) :
    (ScrcpyDebugClient.read_frame_data s n).1 = none :=
  ScrcpyDebugClient.read_frame_data_go_none_of_short n n [] s hwf
    (Nat.le_refl n) (by omega)

/-- Witness for C5 with `n = 5`, `k = 3` delivered as two short reads. -/
theorem read_exactly_truncation_witness :
    NonemptyChunks ⟨[[1, 2], [3]]⟩ ∧ (0 : Nat) < 3 ∧ (3 : Nat) < 5 ∧
      (flattenChunks ⟨[[1, 2], [3]]⟩).length = 3 ∧
      (ScrcpyDebugClient.read_frame_data ⟨[[1, 2], [3]]⟩ 5).1 = none :=
  ⟨by decide, by decide, by decide, by decide,
    read_exactly_truncation 5 3 ⟨[[1, 2], [3]]⟩ (by decide) (by decide)
      (by decide) (by decide)⟩

/-- Counterexample to claim C1: a source that delivers all 64 device-name
bytes, but split into two 32-byte reads, makes `read_device_meta` fail —
the fixed-size reads do not loop, so a single short `recv` fails the
handshake step even though the bytes are forthcoming. -/
theorem device_name_split_read_fails :
    (ScrcpyDebugClient.read_device_meta
        ⟨[List.replicate 32 80, List.replicate 32 0]⟩).1 = false ∧
      (flattenChunks ⟨[List.replicate 32 80, List.replicate 32 0]⟩).length =
        64 := by
  decide

/-- Claim C1 (amended): the fixed-size reads (64-byte device name, 12-byte
codec metadata, 12-byte frame header) each issue a single `recv` and
succeed exactly when that first delivery already carries at least the
requested bytes; only the variable-size payload read loops, and it does
succeed across split deliveries (final conjunct: the same 32+32 split that
fails the device-name read satisfies a 64-byte looping read). -/
theorem fixed_reads_use_single_recv (c : List Nat) (rest : List (List Nat)) :
    ((ScrcpyDebugClient.read_device_meta ⟨c :: rest⟩).1 = true ↔
        64 ≤ c.length) ∧
      ((ScrcpyDebugClient.read_video_meta ⟨c :: rest⟩).1.isSome = true ↔
        12 ≤ c.length) ∧
      ((ScrcpyDebugClient.read_frame_header ⟨c :: rest⟩).1.isSome = true ↔
        12 ≤ c.length) ∧
      (ScrcpyDebugClient.read_frame_data
          ⟨[List.replicate 32 1, List.replicate 32 1]⟩ 64).1.isSome = true := by
  refine ⟨?_, ?_, ?_, by decide⟩
  · simp only [ScrcpyDebugClient.read_device_meta, recv, beq_iff_eq]
    split_ifs with h1 h2 <;>
      simp_all [List.length_take] <;> omega
  · simp only [ScrcpyDebugClient.read_video_meta, recv]
    split_ifs with h1 h2 h3 h3 <;>
      simp_all [List.length_take] <;> omega
  · simp only [ScrcpyDebugClient.read_frame_header, recv]
    split_ifs with h1 h2 h3 h3 <;>
      simp_all [List.length_take] <;> omega

/-- Counterexample to claim C3: at a frame-header boundary, a source that
closed cleanly (zero bytes) and a source that delivers 5 of the 12 header
bytes before closing produce the *same* result `None` — there is no
distinct `EndOfStream` outcome for the zero-byte case. -/
theorem header_eof_and_short_header_same_result :
    (ScrcpyDebugClient.read_frame_header ⟨[]⟩).1 =
        (ScrcpyDebugClient.read_frame_header ⟨[[1, 2, 3, 4, 5]]⟩).1 ∧
      (ScrcpyDebugClient.read_frame_header ⟨[]⟩).1 = none := by
  decide

/-- Claim C3 (amended): whenever the source has fewer than 12 bytes left —
whether zero (clean close at a header boundary) or `0 < k < 12` —
`read_frame_header` returns the same failure value `None` and the frame
loop stops; the code does not distinguish a clean end-of-stream from a
truncated header. -/
theorem read_frame_header_short_none (s : ByteSource)
    (h : (flattenChunks s).length < 12) :
    (ScrcpyDebugClient.read_frame_header s).1 = none := by
  have hf := congrArg List.length (recv_flatten s 12)
  rw [List.length_append] at hf
  simp only [ScrcpyDebugClient.read_frame_header]
  rw [if_neg (by omega)]

/-- Witness for the amended C3 at a 5-byte partial header. -/
theorem read_frame_header_short_none_witness :
    (flattenChunks ⟨[[1, 2, 3, 4, 5]]⟩).length < 12 ∧
      (ScrcpyDebugClient.read_frame_header ⟨[[1, 2, 3, 4, 5]]⟩).1 = none :=
  ⟨by decide, read_frame_header_short_none ⟨[[1, 2, 3, 4, 5]]⟩ (by decide)⟩

/-- Counterexample to claim C4: in the recorder scripts the probe-byte step
*does* fail the handshake.  With all 64 device-name bytes waiting but the
probe `recv(1)` timing out, `ScrcpyRawRecorder.read_device_meta` returns
failure; the same source with a dummy byte delivered in time succeeds. -/
theorem probe_timeout_fails_recorder :
    (ScrcpyRawRecorder.read_device_meta true ⟨[List.replicate 64 80]⟩).1 =
        false ∧
      (ScrcpyRawRecorder.read_device_meta false
          ⟨[[9], List.replicate 64 80]⟩).1 = true := by
  decide

/-- Claim C4 (amended): in `scrcpy_debug_client.py` (and the video client
and `simple_test.py`) the probe step never fails the handshake — a probe
timeout yields exactly the same handshake result as a probe that consumed
a dummy byte — but in `scrcpy_recorder.py` and `scrcpy_raw_recorder.py`
the probe `recv(1)` sits inside the same `try` as the device-name read, so
a probe timeout fails `read_device_meta` for every source. -/
theorem probe_timeout_divergence :
    (∀ (b : Nat) (s : ByteSource),
        ScrcpyDebugClient.handshake true s =
          ScrcpyDebugClient.handshake false ⟨[b] :: s.chunks⟩) ∧
      ∀ s : ByteSource, (ScrcpyRawRecorder.read_device_meta true s).1 =
        false := by
  constructor
  · intro b s
    obtain ⟨ch⟩ := s
    simp [ScrcpyDebugClient.handshake, ScrcpyDebugClient.connect_probe, recv]
  · intro s
    simp [ScrcpyRawRecorder.read_device_meta]

/-- Claim C6: when the decoded header declares `payloadSize = S` but the
source closes before delivering `S` payload bytes, the recorder loop stops
and writes nothing to the output file for that frame — no partial payload
reaches the sink. -/
theorem truncated_frame_writes_nothing (s : ByteSource) (out : List Nat)
    (h12 : (recv s 12).1.length = 12)
    (hshort : (flattenChunks (recv s 12).2).length <
      beNat ((recv s 12).1.drop 8)) :
    (ScrcpyRawRecorder.record_step s out).1 = false ∧
      (ScrcpyRawRecorder.record_step s out).2.1 = out := by
  have hlen := ScrcpyRawRecorder.payload_loop_go_length_le
    (beNat ((recv s 12).1.drop 8)) (beNat ((recv s 12).1.drop 8)) []
    (recv s 12).2
  simp only [List.length_nil, Nat.zero_add] at hlen
  simp only [ScrcpyRawRecorder.record_step, ScrcpyRawRecorder.payload_loop]
  rw [if_neg (by omega), if_neg (by omega)]
  exact ⟨rfl, rfl⟩

/-- Witness for C6 at scenario C: header size 100, only 40 payload bytes. -/
theorem truncated_frame_writes_nothing_witness :
    ((recv truncSource 12).1.length = 12 ∧
        (flattenChunks (recv truncSource 12).2).length <
          beNat ((recv truncSource 12).1.drop 8)) ∧
      (ScrcpyRawRecorder.record_step truncSource []).1 = false ∧
      (ScrcpyRawRecorder.record_step truncSource []).2.1 = [] :=
  ⟨⟨by decide, by decide⟩,
    truncated_frame_writes_nothing truncSource [] (by decide) (by decide)⟩

/-- Claim C7: the 12-byte codec metadata decodes as three big-endian u32
fields (codec id, width, height); the codec id is exposed as four 8-bit
segments most significant first (equal to its 4-byte big-endian encoding);
and on scenario A's bytes (after the 64-byte device name) the decode yields
codec id 1, width 1280, height 720. -/
theorem codec_meta_decode :
    (∀ codec_id : Nat,
        codec_name_codes codec_id = natToBeBytes 4 (codec_id % 2 ^ 32)) ∧
      unpackIII [0, 0, 0, 1, 0, 0, 5, 0, 0, 0, 2, 0xD0] = (1, 1280, 720) ∧
      (ScrcpyDebugClient.read_device_meta pixelSource).1 = true ∧
      (ScrcpyDebugClient.read_video_meta
          (ScrcpyDebugClient.read_device_meta pixelSource).2).1 =
        some (1280, 720) := by
  refine ⟨?_, by decide, by decide, by decide⟩
  intro c
  rw [(by norm_num : (2 : ℕ) ^ 32 = 2 ^ (8 * 4)), natToBeBytes_mod]
  have hl : codec_name_codes c =
      [(c >>> 24) &&& 255, (c >>> 16) &&& 255, (c >>> 8) &&& 255,
        (c >>> 0) &&& 255] := rfl
  have hr : natToBeBytes 4 c =
      [c / 256 / 256 / 256 % 256, c / 256 / 256 % 256, c / 256 % 256,
        c % 256] := rfl
  rw [hl, hr]
  simp only [and_255_eq_mod, Nat.shiftRight_eq_div_pow,
    Nat.div_div_eq_div_mul, List.cons.injEq]
  norm_num

/-- Claim C10: the dummy-byte probe runs unconditionally; whenever the
source's next delivery is nonempty (a byte is available within the probe
timeout), the probe consumes exactly one byte before the 64-byte
device-name read begins, shifting every later read by one byte — also on a
transport that sent no dummy byte, in which case that byte is the first
byte of the device-name field. -/
theorem probe_consumes_one_byte (s : ByteSource) (c : List Nat)
    (rest : List (List Nat)) (hchunks : s.chunks = c :: rest) (hc : c ≠ []) :
    flattenChunks (ScrcpyDebugClient.connect_probe false s) =
      (flattenChunks s).drop 1 := by
  obtain ⟨ch⟩ := s
  simp only at hchunks
  subst hchunks
  show flattenChunks (recv ⟨c :: rest⟩ 1).2 = (flattenChunks ⟨c :: rest⟩).drop 1
  by_cases h : c.length ≤ 1
  · obtain ⟨a, rfl⟩ := List.length_eq_one.mp (show c.length = 1 by
      have := List.length_pos.mpr hc
      omega)
    simp [recv, flattenChunks_cons]
  · have hrecv : (recv ⟨c :: rest⟩ 1).2 = ⟨c.drop 1 :: rest⟩ := by
      simp only [recv]
      rw [if_neg (by omega), if_neg h]
    rw [hrecv, flattenChunks_cons, flattenChunks_cons,
      List.drop_append_of_le_length (by omega)]

/-- Witness for C10: a source whose first delivery is the two bytes
`[1, 2]`; the probe consumes exactly the byte `1`. -/
theorem probe_consumes_one_byte_witness :
    (⟨[[1, 2], [3]]⟩ : ByteSource).chunks = [1, 2] :: [[3]] ∧
      ([1, 2] : List Nat) ≠ [] ∧
      flattenChunks (ScrcpyDebugClient.connect_probe false ⟨[[1, 2], [3]]⟩) =
        (flattenChunks ⟨[[1, 2], [3]]⟩).drop 1 :=
  ⟨rfl, by decide,
    probe_consumes_one_byte ⟨[[1, 2], [3]]⟩ [1, 2] [[3]] rfl (by decide)⟩
